import Mathlib

/-!
Shallow embedding of the cofer MCP server core: the environment registry
(src/environment/registry.rs, src/environment/handle.rs), the JSON-RPC
dispatcher and message framing (src/mcp/server.rs, src/mcp/types.rs) and the
method handlers (src/mcp/handlers.rs).  Container-engine and filesystem
collaborators are modelled as explicit oracles; every engine call a handler
performs is recorded in an action trace.
-/

namespace Cofer

/-- Single-quote character, used when assembling the error messages the Rust
code builds with format strings. -/
def sq : String := String.singleton (Char.ofNat 39)

/-- Message built by format in EnvironmentRegistry::register (and by the
duplicate pre-check of the create handler) for a duplicate env_id. -/
def alreadyMsg (env_id : String) : String :=
  "Environment " ++ sq ++ env_id ++ sq ++ " already exists"

/-- Message built by format in EnvironmentRegistry::get for a missing env_id. -/
def notFoundMsg (env_id : String) : String :=
  "Environment " ++ sq ++ env_id ++ sq ++ " not found"

/-- Boolean contiguous-substring test on character lists, used to state the
claims about words occurring in error messages. -/
def ctnList (hay needle : List Char) : Bool :=
  match hay with
  | [] => needle.isEmpty
  | _ :: t => needle.isPrefixOf hay || ctnList t needle

/-- Boolean substring test on strings. -/
def containsSub (hay needle : String) : Bool := ctnList hay.toList needle.toList

/-- Status of an environment (src/environment/handle.rs, enum EnvironmentStatus). -/
inductive EnvironmentStatus where
  | creating
  | running
  | stopping
  | stopped
  | error (reason : String)
  deriving DecidableEq, Repr

/-- Rendering of EnvironmentStatus by the derived Rust Debug impl, as used by
the format string of the run_command handler. -/
def EnvironmentStatus.debugFmt : EnvironmentStatus → String
  | .creating => "Creating"
  | .running => "Running"
  | .stopping => "Stopping"
  | .stopped => "Stopped"
  | .error r => "Error(\"" ++ r ++ "\")"

/-- Handle to a container environment (src/environment/handle.rs, struct
EnvironmentHandle).  Paths are modelled as strings, the creation timestamp as
a natural number, and the env_vars HashMap as an association list. -/
structure EnvironmentHandle where
  env_id : String
  container_id : String
  project_root : String
  mount_path : String
  created_at : Nat
  status : EnvironmentStatus
  image : String
  env_vars : List (String × String)
  deriving DecidableEq, Repr

/-- Constructor EnvironmentHandle::new: mount_path defaults to /workdir, the
status starts at Creating, env_vars starts empty; Utc::now() is passed in as
the explicit timestamp now. -/
def EnvironmentHandle.new (env_id container_id project_root image : String)
    (now : Nat) : EnvironmentHandle :=
  { env_id := env_id
    container_id := container_id
    project_root := project_root
    mount_path := "/workdir"
    created_at := now
    status := .creating
    image := image
    env_vars := [] }

/-- Method EnvironmentHandle::set_status. -/
def EnvironmentHandle.set_status (h : EnvironmentHandle) (s : EnvironmentStatus) :
    EnvironmentHandle :=
  { h with status := s }

/-- Method EnvironmentHandle::add_env_vars (HashMap::extend; in the create
handler it is only ever applied to the empty map, where extend is append). -/
def EnvironmentHandle.add_env_vars (h : EnvironmentHandle)
    (vars : List (String × String)) : EnvironmentHandle :=
  { h with env_vars := h.env_vars ++ vars }

/-- Registry of active environments (src/environment/registry.rs, struct
EnvironmentRegistry).  The HashMap behind the RwLock is modelled as an
association list; each Rust method holds the lock for its whole body, so each
method below is one atomic transition on this state. -/
structure Registry where
  environments : List (String × EnvironmentHandle)
  deriving Repr

/-- Whether an env_id is a key of the registry (HashMap::contains_key). -/
def Registry.hasKey (r : Registry) (k : String) : Bool :=
  (r.environments.lookup k).isSome

/-- Number of live entries stored under a given env_id. -/
def Registry.countId (r : Registry) (k : String) : Nat :=
  (r.environments.filter (fun p => p.1 == k)).length

/-- Method EnvironmentRegistry::register: under one write-lock critical
section, fail if the env_id is present, otherwise insert the handle. -/
def Registry.register (r : Registry) (h : EnvironmentHandle) :
    Except String Registry :=
  if r.hasKey h.env_id then
    .error (alreadyMsg h.env_id)
  else
    .ok ⟨(h.env_id, h) :: r.environments⟩

/-- Method EnvironmentRegistry::get: snapshot copy of the stored handle, or a
not-found error. -/
def Registry.get (r : Registry) (k : String) : Except String EnvironmentHandle :=
  match r.environments.lookup k with
  | some h => .ok h
  | none => .error (notFoundMsg k)

/-- Method EnvironmentRegistry::count. -/
def Registry.count (r : Registry) : Nat := r.environments.length

/-- Sequential execution of a batch of register calls.  Each register holds
the write lock of the registry for its whole critical section, so every
interleaving of concurrent register calls is one such sequential order;
failed calls leave the state unchanged. -/
def registerAll (r : Registry) (hs : List EnvironmentHandle) :
    Registry × List (Except String Unit) :=
  match hs with
  | [] => (r, [])
  | h :: rest =>
    match r.register h with
    | .ok r2 =>
      let p := registerAll r2 rest
      (p.1, .ok () :: p.2)
    | .error e =>
      let p := registerAll r rest
      (p.1, .error e :: p.2)

/-- JSON values (serde_json::Value); numbers are modelled as integers, which
covers every number the server core produces or inspects. -/
inductive Json where
  | null
  | bool (b : Bool)
  | num (n : Int)
  | str (s : String)
  | arr (xs : List Json)
  | obj (fields : List (String × Json))

/-- Field access on a JSON object (Value::get on a map; object keys are
unique, so association-list lookup is the map lookup). -/
def Json.getField : Json → String → Option Json
  | .obj fs, k => fs.lookup k
  | _, _ => none

/-- Conversion Value::as_str. -/
def Json.asStr : Json → Option String
  | .str s => some s
  | _ => none

/-- Conversion Value::as_object. -/
def Json.asObj : Json → Option (List (String × Json))
  | .obj fs => some fs
  | _ => none

/-- Conversion Value::as_array. -/
def Json.asArr : Json → Option (List Json)
  | .arr xs => some xs
  | _ => none

/-- JSON-RPC request envelope (src/mcp/types.rs, struct McpRequest). -/
structure McpRequest where
  jsonrpc : String
  id : Option Json
  method : String
  params : Option Json

/-- JSON-RPC error object (src/mcp/types.rs, struct McpError). -/
structure McpError where
  code : Int
  message : String
  data : Option Json

/-- Constructor McpError::invalid_request (-32600). -/
def McpError.invalid_request (message : String) : McpError :=
  { code := -32600, message := message, data := none }

/-- Constructor McpError::method_not_found (-32601); it wraps its argument in
a Method-not-found sentence. -/
def McpError.method_not_found (method : String) : McpError :=
  { code := -32601, message := "Method " ++ sq ++ method ++ sq ++ " not found",
    data := none }

/-- Constructor McpError::invalid_params (-32602). -/
def McpError.invalid_params (message : String) : McpError :=
  { code := -32602, message := message, data := none }

/-- Constructor McpError::internal_error (-32603). -/
def McpError.internal_error (message : String) : McpError :=
  { code := -32603, message := message, data := none }

/-- JSON-RPC response envelope (src/mcp/types.rs, struct McpResponse). -/
structure McpResponse where
  jsonrpc : String
  id : Option Json
  result : Option Json
  error : Option McpError

/-- Outcome of parsing raw input text with serde_json::from_str::<McpRequest>;
the fail case carries the rendering of the parse error. -/
inductive ParseOutcome where
  | fail (e : String)
  | ok (req : McpRequest)

/-- Keys of the handler routing table built in McpServer::new
(src/mcp/server.rs, lines 41-49). -/
def routedMethods : List String :=
  ["initialize", "create_environment", "run_command",
   "watch-commit", "note-append", "up", "down"]

/-- Body of UnimplementedHandler::handle (src/mcp/handlers.rs, lines 279-284)
for the routed-but-unimplemented method names. -/
def unimplementedHandle (method : String) : Except McpError Json :=
  .error (McpError.method_not_found
    ("Method " ++ sq ++ method ++ sq ++ " is not implemented"))

/-- Dispatcher McpServer::handle_request (src/mcp/server.rs, lines 174-226):
parse failure yields InvalidRequest with a null id; a version tag other than
2.0 yields InvalidRequest echoing the id; a method missing from the routing
table yields MethodNotFound; otherwise the routed handler runs, abstracted
here as the dispatch argument, and its outcome is wrapped with the id of the request. -/
def handleRequest (dispatch : McpRequest → Except McpError Json)
    (input : ParseOutcome) : McpResponse :=
  match input with
  | .fail e =>
    { jsonrpc := "2.0", id := none, result := none,
      error := some (McpError.invalid_request ("Invalid JSON: " ++ e)) }
  | .ok req =>
    if req.jsonrpc ≠ "2.0" then
      { jsonrpc := "2.0", id := req.id, result := none,
        error := some (McpError.invalid_request "Invalid JSON-RPC version") }
    else if routedMethods.contains req.method then
      match dispatch req with
      | .ok v =>
        { jsonrpc := "2.0", id := req.id, result := some v, error := none }
      | .error err =>
        { jsonrpc := "2.0", id := req.id, result := none, error := some err }
    else
      { jsonrpc := "2.0", id := req.id, result := none,
        error := some (McpError.method_not_found req.method) }

/-- Result of executing a command in a container (src/podman/container.rs,
struct ExecResult); the engine may report no exit code. -/
structure ExecResult where
  exit_code : Option Int
  stdout : String
  stderr : String

/-- Container-engine oracle: the outcome each Podman operation the handlers
call would produce.  PodmanClient::new is connectR; the remaining fields match
the signatures in src/podman. -/
structure Engine where
  connectR : Except String Unit
  ensureImageR : String → Except String Unit
  createContainerR : String → String → String → String →
    List (String × String) → Except String String
  startContainerR : String → Except String Unit
  removeContainerR : String → Bool → Except String Unit
  execCommandR : String → List String → Except String ExecResult

/-- One engine call issued by a handler, recorded in order. -/
inductive EngineAction where
  | connect
  | ensureImage (image : String)
  | createContainer (name image project_root mount_path : String)
      (env_vars : List (String × String))
  | startContainer (container_id : String)
  | removeContainer (container_id : String) (force : Bool)
  | execCommand (container_id : String) (argv : List String)
  deriving DecidableEq, Repr

/-- Whether an engine action is a removal of the given container. -/
def EngineAction.isRemoveOf (a : EngineAction) (cid : String) : Bool :=
  match a with
  | .removeContainer c _ => c == cid
  | _ => false

/-- Outcome of one handler invocation: the returned value or error,
the registry state it leaves behind, and the trace of engine calls it made. -/
structure HandlerOut where
  result : Except McpError Json
  registry : Registry
  trace : List EngineAction

/-- Rendering DateTime::to_rfc3339 of the modelled timestamp; the server core
never inspects the rendered text, so the representation is the numeral. -/
def rfc3339 (now : Nat) : String := toString now

/-- Extraction of a required string parameter
(params.get(k).and_then(Value::as_str)). -/
def getStrParam (params : Json) (k : String) : Option String :=
  (params.getField k).bind Json.asStr

/-- Extraction of the optional env_vars object in the create handler: keep the
string-valued fields (src/mcp/handlers.rs, lines 84-91). -/
def extractEnvVars (params : Json) : List (String × String) :=
  match (params.getField "env_vars").bind Json.asObj with
  | some fields => fields.filterMap (fun p => (Json.asStr p.2).map (fun s => (p.1, s)))
  | none => []

/-- Extraction of the optional mount_path in the create handler, defaulting to
/workdir (src/mcp/handlers.rs, lines 93-96). -/
def extractMount (params : Json) : String :=
  match getStrParam params "mount_path" with
  | some m => m
  | none => "/workdir"

/-- Extraction of the optional ports list in the create handler: keep the
string elements (src/mcp/handlers.rs, lines 98-105). -/
def extractPorts (params : Json) : List String :=
  match (params.getField "ports").bind Json.asArr with
  | some xs => xs.filterMap Json.asStr
  | none => []

/-- Response object built by the create handler on success
(src/mcp/handlers.rs, lines 180-197): env_vars and ports appear only when
nonempty. -/
def createResponse (env_id container_id project_root mount_path : String)
    (now : Nat) (env_vars : List (String × String)) (ports : List String) : Json :=
  let base : List (String × Json) :=
    [("env_id", .str env_id), ("container_id", .str container_id),
     ("project_root", .str project_root), ("mount_path", .str mount_path),
     ("status", .str "running"), ("created_at", .str (rfc3339 now))]
  let base2 :=
    if env_vars.isEmpty then base
    else base ++ [("env_vars", Json.obj (env_vars.map (fun p => (p.1, Json.str p.2))))]
  let base3 :=
    if ports.isEmpty then base2
    else base2 ++ [("ports", Json.arr (ports.map Json.str))]
  Json.obj base3

/-- Handler CreateEnvironmentHandler::handle (src/mcp/handlers.rs, lines
54-200).  The host filesystem existence check is the fs oracle and Utc::now()
is the now argument.  Steps, in source order: required parameters, host-path
validation, optional parameters, duplicate pre-check via Registry::get,
Podman connect, ensure_image, create_container, start_container (with a
forced remove_container of the fresh container when start fails), then handle
construction, atomic registration and the response object. -/
def createEnvironment (fs : String → Bool) (eng : Engine) (now : Nat)
    (req : McpRequest) (reg : Registry) : HandlerOut :=
  match req.params with
  | none => ⟨.error (McpError.invalid_params "Missing parameters"), reg, []⟩
  | some params =>
    match getStrParam params "env_id" with
    | none => ⟨.error (McpError.invalid_params "Missing env_id"), reg, []⟩
    | some env_id =>
      match getStrParam params "project_root" with
      | none => ⟨.error (McpError.invalid_params "Missing project_root"), reg, []⟩
      | some project_root =>
        match getStrParam params "image" with
        | none => ⟨.error (McpError.invalid_params "Missing image"), reg, []⟩
        | some image =>
          if !fs project_root then
            ⟨.error (McpError.invalid_params
              ("Project root does not exist: " ++ project_root)), reg, []⟩
          else
            let env_vars := extractEnvVars params
            let mount_path := extractMount params
            let ports := extractPorts params
            match reg.get env_id with
            | .ok _ =>
              ⟨.error (McpError.invalid_params (alreadyMsg env_id)), reg, []⟩
            | .error _ =>
              match eng.connectR with
              | .error e =>
                ⟨.error (McpError.internal_error
                  ("Failed to connect to Podman: " ++ e)), reg, [.connect]⟩
              | .ok _ =>
                match eng.ensureImageR image with
                | .error e =>
                  ⟨.error (McpError.internal_error ("Failed to ensure image: " ++ e)),
                   reg, [.connect, .ensureImage image]⟩
                | .ok _ =>
                  match eng.createContainerR env_id image project_root mount_path env_vars with
                  | .error e =>
                    ⟨.error (McpError.internal_error ("Failed to create container: " ++ e)),
                     reg, [.connect, .ensureImage image,
                           .createContainer env_id image project_root mount_path env_vars]⟩
                  | .ok container_id =>
                    match eng.startContainerR container_id with
                    | .error e =>
                      ⟨.error (McpError.internal_error ("Failed to start container: " ++ e)),
                       reg, [.connect, .ensureImage image,
                             .createContainer env_id image project_root mount_path env_vars,
                             .startContainer container_id,
                             .removeContainer container_id true]⟩
                    | .ok _ =>
                      let handle0 := EnvironmentHandle.new env_id container_id project_root image now
                      let handle1 := { handle0 with mount_path := mount_path }
                      let handle2 :=
                        if env_vars.isEmpty then handle1 else handle1.add_env_vars env_vars
                      let handle := handle2.set_status .running
                      let trace : List EngineAction :=
                        [.connect, .ensureImage image,
                         .createContainer env_id image project_root mount_path env_vars,
                         .startContainer container_id]
                      match reg.register handle with
                      | .error e => ⟨.error (McpError.internal_error e), reg, trace⟩
                      | .ok reg2 =>
                        ⟨.ok (createResponse env_id container_id project_root mount_path
                            now env_vars ports), reg2, trace⟩

/-- Message built by format in the run_command handler for an environment
whose status is not Running; the status is rendered by its Debug impl. -/
def notRunningMsg (env_id : String) (st : EnvironmentStatus) : String :=
  ("Environment " ++ sq ++ env_id ++ sq ++ " is not running (status: ") ++
    st.debugFmt ++ ")"

/-- Handler RunCommandHandler::handle (src/mcp/handlers.rs, lines 208-271):
required parameters, registry lookup (NotFound becomes InvalidParams), status
gate (non-Running becomes InvalidRequest naming the status), Podman connect,
shell-wrapped exec, and the result object with exit_code defaulting to -1. -/
def runCommand (eng : Engine) (now : Nat) (req : McpRequest) (reg : Registry) :
    HandlerOut :=
  match req.params with
  | none => ⟨.error (McpError.invalid_params "Missing parameters"), reg, []⟩
  | some params =>
    match getStrParam params "env_id" with
    | none => ⟨.error (McpError.invalid_params "Missing env_id"), reg, []⟩
    | some env_id =>
      match getStrParam params "command" with
      | none => ⟨.error (McpError.invalid_params "Missing command"), reg, []⟩
      | some command =>
        match reg.get env_id with
        | .error e =>
          ⟨.error (McpError.invalid_params ("Environment not found: " ++ e)), reg, []⟩
        | .ok handle =>
          if handle.status ≠ .running then
            ⟨.error (McpError.invalid_request (notRunningMsg env_id handle.status)),
             reg, []⟩
          else
            match eng.connectR with
            | .error e =>
              ⟨.error (McpError.internal_error
                ("Failed to connect to Podman: " ++ e)), reg, [.connect]⟩
            | .ok _ =>
              let argv := ["sh", "-c", command]
              match eng.execCommandR handle.container_id argv with
              | .error e =>
                ⟨.error (McpError.internal_error ("Failed to execute command: " ++ e)),
                 reg, [.connect, .execCommand handle.container_id argv]⟩
              | .ok exec_result =>
                ⟨.ok (Json.obj
                  [("env_id", .str env_id), ("command", .str command),
                   ("exit_code", .num (match exec_result.exit_code with
                     | some c => c
                     | none => -1)),
                   ("stdout", .str exec_result.stdout),
                   ("stderr", .str exec_result.stderr),
                   ("executed_at", .str (rfc3339 now))]),
                 reg, [.connect, .execCommand handle.container_id argv]⟩

/-- ASCII whitespace recognised by str::trim in the places the transport
trims (the characters that can actually occur around header tokens). -/
def isWS (c : Char) : Bool :=
  c == ' ' || c == '\t' || c == '\r' || c == '\n'

/-- Whether a header line trims to the empty string. -/
def isBlankLine (l : List Char) : Bool := l.all isWS

/-- Characters of the Content-Length header prefix the reader searches for. -/
def clPre : List Char := "Content-Length: ".toList

/-- Check header_line.starts_with applied to the Content-Length prefix. -/
def isCLLine (l : List Char) : Bool := clPre.isPrefixOf l

/-- Trim of leading and trailing whitespace (str::trim). -/
def trimWS (s : List Char) : List Char :=
  ((s.dropWhile isWS).reverse.dropWhile isWS).reverse

/-- Value of a nonempty all-digit string. -/
def digitsVal (s : List Char) : Option Nat :=
  if s.isEmpty then none
  else if s.all Char.isDigit then
    some (s.foldl (fun a c => a * 10 + (c.toNat - 48)) 0)
  else none

/-- Parse of str::parse::<usize>: an optional leading plus sign, then one or
more decimal digits. -/
def parseUsize (s : List Char) : Option Nat :=
  match s with
  | [] => none
  | c :: rest => if c = '+' then digitsVal rest else digitsVal (c :: rest)

/-- Header-scanning loop of McpServer::read_message (src/mcp/server.rs, lines
121-144), fused with the buffered read_line: cur accumulates the current line
in reverse.  A completed line is checked for the Content-Length prefix;
non-matching lines (blank or otherwise) are skipped.  On end-of-stream,
read_line returns the partial line: if it matches the prefix the loop breaks
with it, and otherwise the next read_line returns zero bytes and the reader
reports no message. -/
def scanHeaderAux : List Char → List Char → Option (List Char × List Char)
  | cur, [] =>
    if cur.isEmpty then none
    else if isCLLine cur.reverse then some (cur.reverse, []) else none
  | cur, c :: rest =>
    if c = '\n' then
      let line := (c :: cur).reverse
      if isCLLine line then some (line, rest) else scanHeaderAux [] rest
    else scanHeaderAux (c :: cur) rest

/-- Scan of a fresh stream for the Content-Length header line. -/
def scanHeader (s : List Char) : Option (List Char × List Char) :=
  scanHeaderAux [] s

/-- Loop of read_message that consumes header lines until a blank one ends
the header block (src/mcp/server.rs, lines 157-164); a read_line hitting
end-of-stream yields an empty line, which trims empty and ends the loop. -/
def skipBlankAux : List Char → List Char → List Char
  | _, [] => []
  | cur, c :: rest =>
    if c = '\n' then
      if isBlankLine ((c :: cur).reverse) then rest else skipBlankAux [] rest
    else skipBlankAux (c :: cur) rest

/-- Consumption of the rest of the header block up to the blank line. -/
def skipToBlank (s : List Char) : List Char := skipBlankAux [] s

/-- Read of exactly n bytes (AsyncReadExt::read_exact): an error when the
stream ends first. -/
def readExact (s : List Char) (n : Nat) : Except String (List Char × List Char) :=
  if n ≤ s.length then .ok (s.take n, s.drop n)
  else .error "early eof while reading message body"

/-- Framed-message reader McpServer::read_message (src/mcp/server.rs, lines
117-171) over a byte stream modelled as a character list: scan for the
Content-Length header (none during the scan means a clean end-of-stream),
strip the prefix, trim and parse the length, consume the rest of the header
block, then read exactly that many bytes as the payload. -/
def readMessage (s : List Char) : Except String (Option (List Char)) :=
  match scanHeader s with
  | none => .ok none
  | some (line, rest) =>
    match parseUsize (trimWS (line.drop clPre.length)) with
    | none => .error "Invalid Content-Length value"
    | some n =>
      match readExact (skipToBlank rest) n with
      | .ok (content, _) => .ok (some content)
      | .error e => .error e

/-- Whether the framed reader rejects a stream with an error (as opposed to
yielding a message or the end-of-stream signal). -/
def readFailed (s : List Char) : Bool :=
  match readMessage s with
  | .error _ => true
  | .ok _ => false

/-- Concrete running handle used to instantiate the theorems below. -/
def wHandle : EnvironmentHandle :=
  { env_id := "e1", container_id := "c1", project_root := "/proj",
    mount_path := "/workdir", created_at := 0, status := .running,
    image := "alpine:latest", env_vars := [] }

/-- Concrete stopped handle used to instantiate the theorems below. -/
def wStopped : EnvironmentHandle :=
  { wHandle with env_id := "e2", container_id := "c2", status := .stopped }

/-- Engine oracle on which every operation succeeds. -/
def engOk : Engine :=
  { connectR := .ok ()
    ensureImageR := fun _ => .ok ()
    createContainerR := fun _ _ _ _ _ => .ok "c1"
    startContainerR := fun _ => .ok ()
    removeContainerR := fun _ _ => .ok ()
    execCommandR := fun _ _ => .ok ⟨some 0, "", ""⟩ }

/-- Engine oracle whose start_container fails after a successful create. -/
def engStartFail : Engine :=
  { engOk with startContainerR := fun _ => .error "boom" }

/-- Engine oracle whose exec reports no exit code. -/
def engExecNoCode : Engine :=
  { engOk with execCommandR := fun _ _ => .ok ⟨none, "out", "err"⟩ }

/-- Filesystem oracle on which every path exists. -/
def fsAll : String → Bool := fun _ => true

/-- Concrete request with a wrong protocol-version tag. -/
def reqBadVer : McpRequest :=
  { jsonrpc := "1.0", id := none, method := "initialize", params := none }

/-- Concrete request whose method is not in the routing table. -/
def reqUnknown : McpRequest :=
  { jsonrpc := "2.0", id := some (.num 7), method := "nope", params := none }

/-- Concrete well-formed request for a routed method. -/
def reqInit : McpRequest :=
  { jsonrpc := "2.0", id := some (.num 8), method := "initialize", params := none }

/-- Concrete request for the routed-but-unimplemented watch-commit method. -/
def reqWatch : McpRequest :=
  { jsonrpc := "2.0", id := some (.num 1), method := "watch-commit", params := none }

/-- Dispatch stand-in whose handlers all succeed with null. -/
def dispatchNull : McpRequest → Except McpError Json := fun _ => .ok Json.null

/-- Dispatch realising the unimplemented entries of the routing table: every
method mapped to UnimplementedHandler runs its handle body. -/
def dispatchUnimpl : McpRequest → Except McpError Json :=
  fun r => unimplementedHandle r.method

/-- Concrete well-formed create_environment request for env_id e9. -/
def reqCreate9 : McpRequest :=
  { jsonrpc := "2.0", id := some (.num 2), method := "create_environment",
    params := some (Json.obj
      [("env_id", Json.str "e9"), ("project_root", Json.str "/p"),
       ("image", Json.str "img")]) }

/-- Concrete create_environment request naming an existing env_id but missing
its project_root parameter. -/
def reqDupMissingRoot : McpRequest :=
  { jsonrpc := "2.0", id := some (.num 3), method := "create_environment",
    params := some (Json.obj [("env_id", Json.str "e1")]) }

/-- Concrete well-formed create_environment request naming the existing
env_id e1. -/
def reqDupFull : McpRequest :=
  { jsonrpc := "2.0", id := some (.num 4), method := "create_environment",
    params := some (Json.obj
      [("env_id", Json.str "e1"), ("project_root", Json.str "/proj"),
       ("image", Json.str "alpine:latest")]) }

/-- Concrete run_command request against env_id e1. -/
def reqRun1 : McpRequest :=
  { jsonrpc := "2.0", id := some (.num 5), method := "run_command",
    params := some (Json.obj
      [("env_id", Json.str "e1"), ("command", Json.str "ls")]) }

/-- Concrete run_command request against env_id e2. -/
def reqRun2 : McpRequest :=
  { jsonrpc := "2.0", id := some (.num 6), method := "run_command",
    params := some (Json.obj
      [("env_id", Json.str "e2"), ("command", Json.str "ls")]) }

/-- Concrete run_command request naming env_id e2 but omitting the command
parameter. -/
def reqRunNoCmd : McpRequest :=
  { jsonrpc := "2.0", id := some (.num 9), method := "run_command",
    params := some (Json.obj [("env_id", Json.str "e2")]) }

theorem lookup_none_of_hasKey_false (r : Registry) (k : String)
    (h : r.hasKey k = false) : r.environments.lookup k = none := by
  unfold Registry.hasKey at h
  cases hx : r.environments.lookup k with
  | none => rfl
  | some v => rw [hx] at h; simp at h

theorem filterKey_nil_of_lookup_none :
    ∀ (l : List (String × EnvironmentHandle)) (k : String),
      l.lookup k = none → l.filter (fun p => p.1 == k) = [] := by
  intro l
  induction l with
  | nil => intro k _; rfl
  | cons p t ih =>
    intro k h
    obtain ⟨k2, v⟩ := p
    simp only [List.lookup] at h
    cases hb : k == k2 with
    | true => rw [hb] at h; simp at h
    | false =>
      rw [hb] at h
      have hne : ¬ (k2 == k) = true := by
        simp only [beq_iff_eq] at hb ⊢
        intro hc
        exact absurd hc.symm (by simpa using hb)
      simp only [List.filter, hne]
      simp only [Bool.false_eq_true] at hne
      simp [hne, ih k h]

theorem register_ok (r : Registry) (h : EnvironmentHandle)
    (hk : r.hasKey h.env_id = false) :
    r.register h = .ok ⟨(h.env_id, h) :: r.environments⟩ := by
  simp [Registry.register, hk]

theorem register_dup (r : Registry) (h : EnvironmentHandle)
    (hk : r.hasKey h.env_id = true) :
    r.register h = .error (alreadyMsg h.env_id) := by
  simp [Registry.register, hk]

theorem hasKey_cons_self (l : List (String × EnvironmentHandle)) (k : String)
    (h : EnvironmentHandle) : (Registry.mk ((k, h) :: l)).hasKey k = true := by
  simp [Registry.hasKey, List.lookup]

theorem registerAll_fail (X : String) :
    ∀ (hs : List EnvironmentHandle) (r : Registry),
      (∀ h ∈ hs, h.env_id = X) → r.hasKey X = true →
      registerAll r hs = (r, hs.map (fun _ => .error (alreadyMsg X))) := by
  intro hs
  induction hs with
  | nil => intro r _ _; rfl
  | cons h t ih =>
    intro r hall hk
    have hid : h.env_id = X := hall h (by simp)
    have hdup : r.register h = .error (alreadyMsg X) := by
      rw [← hid] at hk
      rw [register_dup r h hk, hid]
    simp [registerAll, hdup, ih r (fun g hg => hall g (by simp [hg])) hk]

/-- C1: when any number of register calls for one env_id race on a registry
not containing that id, each interleaving the write lock admits is a
sequential order of the atomic check-and-insert critical sections; in every
such order exactly the first call succeeds, every other call fails with the
already-exists error, and the registry ends with exactly one entry for the
id. -/
theorem C1_register_exactly_once (r0 : Registry) (X : String)
    (h0 : EnvironmentHandle) (hs : List EnvironmentHandle)
    (hid0 : h0.env_id = X) (hids : ∀ h ∈ hs, h.env_id = X)
    (habs : r0.hasKey X = false) :
    (registerAll r0 (h0 :: hs)).2 =
      .ok () :: hs.map (fun _ => .error (alreadyMsg X)) ∧
    (registerAll r0 (h0 :: hs)).1.countId X = 1 := by
  subst hid0
  have hreg := register_ok r0 h0 habs
  have hk1 := hasKey_cons_self r0.environments h0.env_id h0
  have hall := registerAll_fail h0.env_id hs ⟨(h0.env_id, h0) :: r0.environments⟩ hids hk1
  have hflt := filterKey_nil_of_lookup_none r0.environments h0.env_id
    (lookup_none_of_hasKey_false r0 h0.env_id habs)
  constructor
  · simp [registerAll, hreg, hall]
  · simp [registerAll, hreg, hall, Registry.countId, List.filter, hflt]

/-- C1 witness: three racing register calls for env_id dup on the empty
registry; the first succeeds, the other two fail already-exists, and the
final count for dup is one. -/
theorem C1_register_exactly_once_witness :
    ({ wHandle with env_id := "dup" } : EnvironmentHandle).env_id = "dup" ∧
    (∀ h ∈ [{ wHandle with env_id := "dup", container_id := "cB" },
            { wHandle with env_id := "dup", container_id := "cC" }],
       EnvironmentHandle.env_id h = "dup") ∧
    (Registry.mk []).hasKey "dup" = false ∧
    ((registerAll (Registry.mk [])
        ({ wHandle with env_id := "dup" } ::
         [{ wHandle with env_id := "dup", container_id := "cB" },
          { wHandle with env_id := "dup", container_id := "cC" }])).2 =
      .ok () :: [{ wHandle with env_id := "dup", container_id := "cB" },
                 { wHandle with env_id := "dup", container_id := "cC" }].map
        (fun _ => .error (alreadyMsg "dup")) ∧
     (registerAll (Registry.mk [])
        ({ wHandle with env_id := "dup" } ::
         [{ wHandle with env_id := "dup", container_id := "cB" },
          { wHandle with env_id := "dup", container_id := "cC" }])).1.countId "dup" = 1) :=
  ⟨rfl, by decide, rfl,
   C1_register_exactly_once (Registry.mk []) "dup" _ _ rfl (by decide) rfl⟩

/-- C9: registering a handle whose env_id is absent succeeds, and getting
that env_id afterwards returns a handle equal to it in every field. -/
theorem C9_register_get_roundtrip (r : Registry) (h : EnvironmentHandle)
    (habs : r.hasKey h.env_id = false) :
    ∃ r2, r.register h = .ok r2 ∧ r2.get h.env_id = .ok h := by
  refine ⟨⟨(h.env_id, h) :: r.environments⟩, register_ok r h habs, ?_⟩
  simp [Registry.get, List.lookup]

/-- C9 witness: the round trip evaluated on a concrete handle and the empty
registry. -/
theorem C9_register_get_roundtrip_witness :
    (Registry.mk []).hasKey wHandle.env_id = false ∧
    ∃ r2, (Registry.mk []).register wHandle = .ok r2 ∧
      r2.get wHandle.env_id = .ok wHandle :=
  ⟨rfl, C9_register_get_roundtrip (Registry.mk []) wHandle rfl⟩

/-- C5: the dispatcher answers a parse failure with code -32600 and a null
id; a parsed request with a version tag other than 2.0 with -32600 echoing
its id; a method absent from the routing table with -32601 echoing its id;
and every response echoes the id of the request (or null), whatever the routed
handler returns. -/
theorem C5_dispatch_codes (dispatch : McpRequest → Except McpError Json)
    (e : String) (reqV reqM reqA : McpRequest)
    (hv : reqV.jsonrpc ≠ "2.0")
    (hm1 : reqM.jsonrpc = "2.0")
    (hm2 : routedMethods.contains reqM.method = false) :
    (handleRequest dispatch (.fail e)).id = none ∧
    (handleRequest dispatch (.fail e)).error.map McpError.code = some (-32600) ∧
    (handleRequest dispatch (.ok reqV)).id = reqV.id ∧
    (handleRequest dispatch (.ok reqV)).error.map McpError.code = some (-32600) ∧
    (handleRequest dispatch (.ok reqM)).id = reqM.id ∧
    (handleRequest dispatch (.ok reqM)).error.map McpError.code = some (-32601) ∧
    (handleRequest dispatch (.ok reqA)).id = reqA.id := by
  have hm2m : reqM.method ∉ routedMethods := by simpa using hm2
  refine ⟨rfl, rfl, ?_, ?_, ?_, ?_, ?_⟩
  · simp [handleRequest, hv]
  · simp [handleRequest, hv, McpError.invalid_request]
  · simp [handleRequest, hm1, hm2m]
  · simp [handleRequest, hm1, hm2m, McpError.method_not_found]
  · by_cases hc1 : reqA.jsonrpc = "2.0"
    · by_cases hc2 : reqA.method ∈ routedMethods
      · cases hd : dispatch reqA with
        | ok v => simp [handleRequest, hc1, hc2, hd]
        | error err => simp [handleRequest, hc1, hc2, hd]
      · simp [handleRequest, hc1, hc2]
    · simp [handleRequest, hc1]

/-- C5 witness: the three error shapes and the id echo evaluated on concrete
requests against a dispatch whose handlers return null. -/
theorem C5_dispatch_codes_witness :
    reqBadVer.jsonrpc ≠ "2.0" ∧ reqUnknown.jsonrpc = "2.0" ∧
    routedMethods.contains reqUnknown.method = false ∧
    ((handleRequest dispatchNull (.fail "oops")).id = none ∧
     (handleRequest dispatchNull (.fail "oops")).error.map McpError.code = some (-32600) ∧
     (handleRequest dispatchNull (.ok reqBadVer)).id = reqBadVer.id ∧
     (handleRequest dispatchNull (.ok reqBadVer)).error.map McpError.code = some (-32600) ∧
     (handleRequest dispatchNull (.ok reqUnknown)).id = reqUnknown.id ∧
     (handleRequest dispatchNull (.ok reqUnknown)).error.map McpError.code = some (-32601) ∧
     (handleRequest dispatchNull (.ok reqInit)).id = reqInit.id) :=
  ⟨by decide, rfl, by decide,
   C5_dispatch_codes dispatchNull "oops" reqBadVer reqUnknown reqInit
     (by decide) rfl (by decide)⟩

/-- C4 (observed defect): watch-commit is in the routing table and mapped to
the unimplemented handler, and the response is a -32601 error, but its
message says is-not-implemented inside the method-not-found wrapping and
therefore does not contain the word unimplemented — contradicting the claim
and the own test of the repository (src/mcp/server.rs, test_unimplemented_method). -/
theorem C4_unimplemented_word_missing :
    routedMethods.contains "watch-commit" = true ∧
    (handleRequest dispatchUnimpl (.ok reqWatch)).error.map McpError.code
      = some (-32601) ∧
    (handleRequest dispatchUnimpl (.ok reqWatch)).error.map
      (fun err => containsSub err.message "is not implemented") = some true ∧
    (handleRequest dispatchUnimpl (.ok reqWatch)).error.map
      (fun err => containsSub err.message "unimplemented") = some false := by
  refine ⟨by decide, rfl, ?_, ?_⟩ <;> decide

theorem isPrefixOf_append_self (l t : List Char) : l.isPrefixOf (l ++ t) = true := by
  induction l with
  | nil => cases t <;> simp [List.isPrefixOf]
  | cons c l ih => simp [List.isPrefixOf, ih]

theorem ctnList_nil (hay : List Char) : ctnList hay [] = true := by
  cases hay <;> simp [ctnList, List.isPrefixOf]

theorem ctnList_self_append (needle post : List Char) :
    ctnList (needle ++ post) needle = true := by
  cases needle with
  | nil => exact ctnList_nil post
  | cons c t => simp [ctnList, isPrefixOf_append_self]

theorem ctnList_append_mid (pre needle post : List Char) :
    ctnList (pre ++ needle ++ post) needle = true := by
  induction pre with
  | nil => simpa using ctnList_self_append needle post
  | cons c p ih =>
    simp only [List.cons_append, ctnList, List.append_eq]
    rw [ih]
    exact Bool.or_true _

theorem ne_nl_of_isDigit (c : Char) (h : c.isDigit = true) : c ≠ '\n' := by
  intro he
  subst he
  exact absurd h (by decide)

theorem isWS_false_of_isDigit (c : Char) (h : c.isDigit = true) : isWS c = false := by
  cases hw : isWS c with
  | false => rfl
  | true =>
    unfold isWS at hw
    rcases (by simpa using hw : ((c = ' ' ∨ c = '\t') ∨ c = '\r') ∨ c = '\n') with
      ((h1 | h1) | h1) | h1 <;> (subst h1; exact absurd h (by decide))

theorem dropWhile_eq_self_of_all (l : List Char)
    (h : ∀ c ∈ l, isWS c = false) : l.dropWhile isWS = l := by
  cases l with
  | nil => rfl
  | cons c t => simp [List.dropWhile_cons, h c (by simp)]

theorem scanHeaderAux_line (l : List Char) :
    ∀ (cur rest : List Char), (∀ c ∈ l, c ≠ '\n') →
    scanHeaderAux cur (l ++ '\n' :: rest) =
      if isCLLine (cur.reverse ++ (l ++ ['\n'])) then
        some (cur.reverse ++ (l ++ ['\n']), rest)
      else scanHeaderAux [] rest := by
  induction l with
  | nil =>
    intro cur rest _
    show scanHeaderAux cur ('\n' :: rest) = _
    simp [scanHeaderAux, List.reverse_cons]
  | cons c l ih =>
    intro cur rest hl
    have hc : c ≠ '\n' := hl c (by simp)
    have hstep : scanHeaderAux cur ((c :: l) ++ '\n' :: rest)
        = scanHeaderAux (c :: cur) (l ++ '\n' :: rest) := by
      simp [scanHeaderAux, hc]
    rw [hstep, ih (c :: cur) rest (fun d hd => hl d (by simp [hd]))]
    simp [List.reverse_cons, List.append_assoc]

theorem scanHeaderAux_noNL (t : List Char) :
    ∀ cur, (∀ c ∈ t, c ≠ '\n') →
    scanHeaderAux cur t =
      if (cur.reverse ++ t).isEmpty then none
      else if isCLLine (cur.reverse ++ t) then some (cur.reverse ++ t, []) else none := by
  induction t with
  | nil =>
    intro cur _
    cases cur with
    | nil => rfl
    | cons c cs => simp [scanHeaderAux, List.isEmpty_iff]
  | cons c t ih =>
    intro cur hl
    have hc : c ≠ '\n' := hl c (by simp)
    have hstep : scanHeaderAux cur (c :: t) = scanHeaderAux (c :: cur) t := by
      simp [scanHeaderAux, hc]
    rw [hstep, ih (c :: cur) (fun d hd => hl d (by simp [hd]))]
    simp [List.reverse_cons, List.append_assoc]

theorem scanHeader_skip_junk (junks : List (List Char)) (t : List Char)
    (hj : ∀ j ∈ junks, (∀ c ∈ j, c ≠ '\n') ∧ isCLLine (j ++ ['\n']) = false) :
    scanHeader ((junks.map (fun j => j ++ ['\n'])).flatten ++ t) = scanHeader t := by
  induction junks with
  | nil => simp
  | cons j js ih =>
    have hji := hj j (by simp)
    have hrw : ((j :: js).map (fun x => x ++ ['\n'])).flatten ++ t
        = j ++ '\n' :: ((js.map (fun x => x ++ ['\n'])).flatten ++ t) := by
      simp [List.append_assoc]
    unfold scanHeader
    rw [hrw, scanHeaderAux_line j [] _ hji.1]
    simp only [List.reverse_nil, List.nil_append, hji.2, if_false, Bool.false_eq_true]
    exact ih (fun g hg => hj g (by simp [hg]))

theorem scanHeader_cl (D rest : List Char) (hD : D.all Char.isDigit = true) :
    scanHeader (clPre ++ D ++ '\r' :: '\n' :: rest)
      = some (clPre ++ D ++ ['\r', '\n'], rest) := by
  have hclpre : ∀ c ∈ clPre, c ≠ '\n' := by decide
  have hnl : ∀ c ∈ (clPre ++ D) ++ ['\r'], c ≠ '\n' := by
    intro c hc
    rcases List.mem_append.1 hc with hc1 | hc2
    · rcases List.mem_append.1 hc1 with hc3 | hc4
      · exact hclpre c hc3
      · exact ne_nl_of_isDigit c (by
          have := List.all_eq_true.1 hD c hc4
          simpa using this)
    · simp only [List.mem_singleton] at hc2
      subst hc2; decide
  have hrw : clPre ++ D ++ '\r' :: '\n' :: rest
      = ((clPre ++ D) ++ ['\r']) ++ '\n' :: rest := by
    simp [List.append_assoc]
  have hcl : isCLLine ([].reverse ++ (((clPre ++ D) ++ ['\r']) ++ ['\n'])) = true := by
    unfold isCLLine
    have : ([].reverse ++ (((clPre ++ D) ++ ['\r']) ++ ['\n']) : List Char)
        = clPre ++ (D ++ ['\r', '\n']) := by simp [List.append_assoc]
    rw [this]
    exact isPrefixOf_append_self clPre (D ++ ['\r', '\n'])
  unfold scanHeader
  rw [hrw, scanHeaderAux_line ((clPre ++ D) ++ ['\r']) [] rest hnl]
  rw [if_pos hcl]
  simp [List.append_assoc]

theorem digitsVal_some (D : List Char) (n : Nat) (h : digitsVal D = some n) :
    D ≠ [] ∧ D.all Char.isDigit = true := by
  unfold digitsVal at h
  by_cases h1 : D.isEmpty
  · simp [h1] at h
  · by_cases h2 : D.all Char.isDigit
    · exact ⟨by simpa [List.isEmpty_iff] using h1, h2⟩
    · simp [h1, h2] at h

theorem trimWS_digits (D : List Char) (hne : D ≠ []) (hd : D.all Char.isDigit = true) :
    trimWS (D ++ ['\r', '\n']) = D := by
  obtain ⟨d, D', rfl⟩ : ∃ d D', D = d :: D' := by
    cases D with
    | nil => exact absurd rfl hne
    | cons d D' => exact ⟨d, D', rfl⟩
  have hall : ∀ c ∈ d :: D', c.isDigit = true := fun c hc => by
    have := List.all_eq_true.1 hd c hc
    simpa using this
  have hstep1 : ((d :: D') ++ ['\r', '\n']).dropWhile isWS = (d :: D') ++ ['\r', '\n'] := by
    simp [List.dropWhile_cons, isWS_false_of_isDigit d (hall d (by simp))]
  have hstep2 : ((d :: D') ++ ['\r', '\n']).reverse
      = '\n' :: '\r' :: (d :: D').reverse := by
    rw [List.reverse_append]
    rfl
  have hstep3 : ('\n' :: '\r' :: (d :: D').reverse).dropWhile isWS = (d :: D').reverse := by
    rw [List.dropWhile_cons, if_pos (by decide), List.dropWhile_cons, if_pos (by decide)]
    exact dropWhile_eq_self_of_all _ (fun c hc =>
      isWS_false_of_isDigit c (hall c (List.mem_reverse.1 hc)))
  unfold trimWS
  rw [hstep1, hstep2, hstep3, List.reverse_reverse]

theorem parseUsize_digits (D : List Char) (n : Nat) (hD : digitsVal D = some n) :
    parseUsize D = some n := by
  obtain ⟨hne, hall⟩ := digitsVal_some D n hD
  cases D with
  | nil => exact absurd rfl hne
  | cons d D' =>
    have hd : d.isDigit = true := by
      have := List.all_eq_true.1 hall d (by simp)
      simpa using this
    have hplus : ¬ (d = '+') := by
      intro h
      subst h
      exact absurd hd (by decide)
    simp [parseUsize, hplus, hD]

theorem skipToBlank_crlf (t : List Char) : skipToBlank ('\r' :: '\n' :: t) = t := rfl

theorem readExact_all (t : List Char) : readExact t t.length = .ok (t, []) := by
  simp [readExact]

theorem readExact_short (t : List Char) (n : Nat) (h : t.length < n) :
    readExact t n = .error "early eof while reading message body" := by
  simp [readExact, Nat.not_le.2 h]

theorem readMessage_frame (junks : List (List Char)) (D P : List Char)
    (hj : ∀ j ∈ junks, (∀ c ∈ j, c ≠ '\n') ∧ isCLLine (j ++ ['\n']) = false)
    (hD : digitsVal D = some P.length) :
    readMessage ((junks.map (fun j => j ++ ['\n'])).flatten ++
      (clPre ++ D ++ '\r' :: '\n' :: '\r' :: '\n' :: P)) = .ok (some P) := by
  obtain ⟨hne, hall⟩ := digitsVal_some D P.length hD
  unfold readMessage
  rw [scanHeader_skip_junk junks _ hj]
  have hdrop : (clPre ++ D ++ ['\r', '\n']).drop clPre.length = D ++ ['\r', '\n'] := by
    rw [List.append_assoc]
    exact List.drop_left clPre (D ++ ['\r', '\n'])
  simp only [scanHeader_cl D ('\r' :: '\n' :: P) hall, hdrop,
    trimWS_digits D hne hall, parseUsize_digits D P.length hD,
    skipToBlank_crlf, readExact_all]

theorem readMessage_midbody_err (D t : List Char) (n : Nat)
    (hD : digitsVal D = some n) (hlt : t.length < n) :
    readMessage (clPre ++ D ++ '\r' :: '\n' :: '\r' :: '\n' :: t)
      = .error "early eof while reading message body" := by
  obtain ⟨hne, hall⟩ := digitsVal_some D n hD
  unfold readMessage
  have hdrop : (clPre ++ D ++ ['\r', '\n']).drop clPre.length = D ++ ['\r', '\n'] := by
    rw [List.append_assoc]
    exact List.drop_left clPre (D ++ ['\r', '\n'])
  simp only [scanHeader_cl D ('\r' :: '\n' :: t) hall, hdrop,
    trimWS_digits D hne hall, parseUsize_digits D n hD,
    skipToBlank_crlf, readExact_short t n hlt]

/-- C8: feeding the reader any run of non-Content-Length header lines, then a
Content-Length header announcing the byte count of the payload, the blank line and
the payload, yields exactly the payload; the empty stream yields no message;
and a stream whose body ends before the announced count is an error. -/
theorem C8_framing (junks : List (List Char)) (D P t : List Char)
    (hj : ∀ j ∈ junks, (∀ c ∈ j, c ≠ '\n') ∧ isCLLine (j ++ ['\n']) = false)
    (hD : digitsVal D = some P.length)
    (ht : t.length < P.length) :
    readMessage ((junks.map (fun j => j ++ ['\n'])).flatten ++
      (clPre ++ D ++ '\r' :: '\n' :: '\r' :: '\n' :: P)) = .ok (some P) ∧
    readMessage [] = .ok none ∧
    readFailed (clPre ++ D ++ '\r' :: '\n' :: '\r' :: '\n' :: t) = true := by
  refine ⟨readMessage_frame junks D P hj hD, rfl, ?_⟩
  simp only [readFailed]
  rw [readMessage_midbody_err D t P.length hD ht]

/-- C8 witness: one stray header line, the header Content-Length 5, payload
hello; and the same header over the truncated body he. -/
theorem C8_framing_witness :
    (∀ j ∈ [("X-Foo: bar\r").toList],
      (∀ c ∈ j, c ≠ '\n') ∧ isCLLine (j ++ ['\n']) = false) ∧
    digitsVal ['5'] = some ("hello".toList).length ∧
    ("he".toList).length < ("hello".toList).length ∧
    (readMessage (([("X-Foo: bar\r").toList].map (fun j => j ++ ['\n'])).flatten ++
      (clPre ++ ['5'] ++ '\r' :: '\n' :: '\r' :: '\n' :: "hello".toList))
        = .ok (some "hello".toList) ∧
     readMessage [] = .ok none ∧
     readFailed (clPre ++ ['5'] ++ '\r' :: '\n' :: '\r' :: '\n' :: "he".toList) = true) :=
  ⟨by decide, by decide, by decide,
   C8_framing [("X-Foo: bar\r").toList] ['5'] "hello".toList "he".toList
     (by decide) (by decide) (by decide)⟩

/-- C3 counterexample: a nonempty stream holding one complete stray header
line and then ending — header bytes were consumed, the stream ends before any
Content-Length header, yet the reader yields the end-of-stream signal rather
than an error, refuting the claim that no-message is returned only before any
header bytes are read. -/
theorem C3_midheader_counterexample :
    readMessage ("X: y\n".toList) = .ok none ∧ ("X: y\n".toList) ≠ [] :=
  ⟨rfl, by decide⟩

/-- C3 (amended): the reader yields no-message whenever end-of-stream is hit
while still scanning for the Content-Length header — also after stray header
lines or a trailing partial non-Content-Length line were consumed; a stream
that ends mid-body, after a Content-Length header was matched but before the
announced byte count is available, is an error. -/
theorem C3_eof_during_scan (junks : List (List Char)) (t D p : List Char) (n : Nat)
    (hj : ∀ j ∈ junks, (∀ c ∈ j, c ≠ '\n') ∧ isCLLine (j ++ ['\n']) = false)
    (ht1 : ∀ c ∈ t, c ≠ '\n') (ht2 : isCLLine t = false)
    (hD : digitsVal D = some n) (hp : p.length < n) :
    readMessage ((junks.map (fun j => j ++ ['\n'])).flatten ++ t) = .ok none ∧
    readFailed (clPre ++ D ++ '\r' :: '\n' :: '\r' :: '\n' :: p) = true := by
  constructor
  · have hscan : scanHeader t = none := by
      unfold scanHeader
      rw [scanHeaderAux_noNL t [] ht1]
      simp only [List.reverse_nil, List.nil_append]
      by_cases he : t.isEmpty
      · simp [he]
      · simp [he, ht2]
    unfold readMessage
    rw [scanHeader_skip_junk junks t hj, hscan]
  · simp only [readFailed]
    rw [readMessage_midbody_err D p n hD hp]

/-- C3 amended-claim witness: a stray header line followed by a partial
Content-Le fragment yields no-message, while a truncated three-byte body
announced as five bytes is an error. -/
theorem C3_eof_during_scan_witness :
    (∀ j ∈ [("X: y").toList], (∀ c ∈ j, c ≠ '\n') ∧ isCLLine (j ++ ['\n']) = false) ∧
    (∀ c ∈ ("Content-Le").toList, c ≠ '\n') ∧
    isCLLine (("Content-Le").toList) = false ∧
    digitsVal ['5'] = some 5 ∧ ("abc".toList).length < 5 ∧
    (readMessage (([("X: y").toList].map (fun j => j ++ ['\n'])).flatten ++
       ("Content-Le").toList) = .ok none ∧
     readFailed (clPre ++ ['5'] ++ '\r' :: '\n' :: '\r' :: '\n' :: "abc".toList) = true) :=
  ⟨by decide, by decide, by decide, by decide, by decide,
   C3_eof_during_scan [("X: y").toList] ("Content-Le").toList ['5'] ("abc".toList) 5
     (by decide) (by decide) (by decide) (by decide) (by decide)⟩

theorem get_err_of_hasKey_false (r : Registry) (k : String)
    (h : r.hasKey k = false) : r.get k = .error (notFoundMsg k) := by
  unfold Registry.get
  rw [lookup_none_of_hasKey_false r k h]

theorem get_ok_of_lookup (r : Registry) (k : String) (h : EnvironmentHandle)
    (hl : r.environments.lookup k = some h) : r.get k = .ok h := by
  unfold Registry.get
  rw [hl]

theorem ctnList_append_right (pre needle : List Char) :
    ctnList (pre ++ needle) needle = true := by
  have := ctnList_append_mid pre needle []
  simpa using this

theorem containsSub_alreadyMsg (eid : String) :
    containsSub (alreadyMsg eid) "already exists" = true := by
  unfold containsSub
  have hsplit : (alreadyMsg eid).toList
      = (("Environment " ++ sq ++ eid ++ sq).toList ++ [' '])
          ++ ("already exists" : String).toList := by
    unfold alreadyMsg
    simp [String.toList, String.data_append, List.append_assoc]
  rw [hsplit]
  exact ctnList_append_right _ _

theorem containsSub_notRunningMsg (eid : String) (st : EnvironmentStatus) :
    containsSub (notRunningMsg eid st) st.debugFmt = true := by
  unfold containsSub
  have hsplit : (notRunningMsg eid st).toList
      = ("Environment " ++ sq ++ eid ++ sq ++ " is not running (status: ").toList
          ++ st.debugFmt.toList ++ (")" : String).toList := by
    unfold notRunningMsg
    simp [String.toList, String.data_append, List.append_assoc]
  rw [hsplit]
  exact ctnList_append_mid _ _ _

/-- C2: whenever the parameters of the create handler are well formed, the path
exists, the env_id is free, connect, ensure_image and create_container
succeed and start_container fails, the handler returns InternalError, leaves
the registry untouched (registers nothing), and its engine trace ends with
exactly one forced removal of the just-created container right after the
failed start — create and start each ran once, so nothing was retried. -/
theorem C2_start_failure_compensation
    (fs : String → Bool) (eng : Engine) (now : Nat) (req : McpRequest)
    (reg : Registry) (params : Json) (eid proot img cid e : String)
    (hp : req.params = some params)
    (he : getStrParam params "env_id" = some eid)
    (hr : getStrParam params "project_root" = some proot)
    (hi : getStrParam params "image" = some img)
    (hfs : fs proot = true)
    (hdup : reg.hasKey eid = false)
    (hc : eng.connectR = .ok ())
    (him : eng.ensureImageR img = .ok ())
    (hcc : eng.createContainerR eid img proot (extractMount params)
      (extractEnvVars params) = .ok cid)
    (hst : eng.startContainerR cid = .error e) :
    createEnvironment fs eng now req reg =
      ⟨.error (McpError.internal_error ("Failed to start container: " ++ e)), reg,
       [.connect, .ensureImage img,
        .createContainer eid img proot (extractMount params) (extractEnvVars params),
        .startContainer cid, .removeContainer cid true]⟩ ∧
    ((createEnvironment fs eng now req reg).trace.filter
      (fun a => a.isRemoveOf cid)).length = 1 := by
  have hget := get_err_of_hasKey_false reg eid hdup
  have h1 : createEnvironment fs eng now req reg =
      ⟨.error (McpError.internal_error ("Failed to start container: " ++ e)), reg,
       [.connect, .ensureImage img,
        .createContainer eid img proot (extractMount params) (extractEnvVars params),
        .startContainer cid, .removeContainer cid true]⟩ := by
    unfold createEnvironment
    simp only [hp, he, hr, hi, hfs, Bool.not_true, Bool.false_eq_true, if_false,
      hget, hc, him, hcc, hst]
  refine ⟨h1, ?_⟩
  rw [h1]
  simp [EngineAction.isRemoveOf]

/-- C2 witness: the compensation path evaluated on a concrete request against
the empty registry with an engine whose start fails. -/
theorem C2_start_failure_compensation_witness :
    reqCreate9.params = some (Json.obj
      [("env_id", Json.str "e9"), ("project_root", Json.str "/p"),
       ("image", Json.str "img")]) ∧
    (Registry.mk []).hasKey "e9" = false ∧
    engStartFail.startContainerR "c1" = .error "boom" ∧
    (createEnvironment fsAll engStartFail 0 reqCreate9 (Registry.mk []) =
      ⟨.error (McpError.internal_error ("Failed to start container: " ++ "boom")),
       Registry.mk [],
       [.connect, .ensureImage "img",
        .createContainer "e9" "img" "/p"
          (extractMount (Json.obj
            [("env_id", Json.str "e9"), ("project_root", Json.str "/p"),
             ("image", Json.str "img")]))
          (extractEnvVars (Json.obj
            [("env_id", Json.str "e9"), ("project_root", Json.str "/p"),
             ("image", Json.str "img")])),
        .startContainer "c1", .removeContainer "c1" true]⟩ ∧
     ((createEnvironment fsAll engStartFail 0 reqCreate9 (Registry.mk [])).trace.filter
       (fun a => a.isRemoveOf "c1")).length = 1) :=
  ⟨rfl, rfl, rfl,
   C2_start_failure_compensation fsAll engStartFail 0 reqCreate9 (Registry.mk [])
     (Json.obj [("env_id", Json.str "e9"), ("project_root", Json.str "/p"),
       ("image", Json.str "img")]) "e9" "/p" "img" "c1" "boom"
     rfl rfl rfl rfl rfl rfl rfl rfl rfl rfl⟩

/-- C6 counterexample: a create_environment request naming an env_id that is
already registered but omitting project_root fails with -32602 — yet with
the message Missing project_root, which does not contain already exists,
because parameter validation runs before the duplicate check; this refutes
the claim as stated over every request with a present env_id. -/
theorem C6_validation_precedes_duplicate :
    (Registry.mk [("e1", wHandle)]).hasKey "e1" = true ∧
    (createEnvironment fsAll engOk 0 reqDupMissingRoot
        (Registry.mk [("e1", wHandle)])).result
      = .error (McpError.invalid_params "Missing project_root") ∧
    containsSub "Missing project_root" "already exists" = false ∧
    (createEnvironment fsAll engOk 0 reqDupMissingRoot
        (Registry.mk [("e1", wHandle)])).registry = Registry.mk [("e1", wHandle)] :=
  ⟨rfl, rfl, by decide, rfl⟩

/-- C6 (amended): for every create_environment request that passes parameter
extraction and host-path validation (env_id, project_root and image present
as strings, project_root existing) and whose env_id is already present, the
handler returns -32602 with a message containing already exists, performs no
engine call, and leaves the registry unchanged. -/
theorem C6_duplicate_rejected
    (fs : String → Bool) (eng : Engine) (now : Nat) (req : McpRequest)
    (reg : Registry) (params : Json) (eid proot img : String)
    (h : EnvironmentHandle)
    (hp : req.params = some params)
    (he : getStrParam params "env_id" = some eid)
    (hr : getStrParam params "project_root" = some proot)
    (hi : getStrParam params "image" = some img)
    (hfs : fs proot = true)
    (hl : reg.environments.lookup eid = some h) :
    (createEnvironment fs eng now req reg).result
      = .error (McpError.invalid_params (alreadyMsg eid)) ∧
    (McpError.invalid_params (alreadyMsg eid)).code = -32602 ∧
    containsSub (alreadyMsg eid) "already exists" = true ∧
    (createEnvironment fs eng now req reg).registry = reg ∧
    (createEnvironment fs eng now req reg).trace = [] := by
  have hget := get_ok_of_lookup reg eid h hl
  have h1 : createEnvironment fs eng now req reg =
      ⟨.error (McpError.invalid_params (alreadyMsg eid)), reg, []⟩ := by
    unfold createEnvironment
    simp only [hp, he, hr, hi, hfs, Bool.not_true, Bool.false_eq_true, if_false, hget]
  rw [h1]
  exact ⟨rfl, rfl, containsSub_alreadyMsg eid, rfl, rfl⟩

/-- C6 amended-claim witness: resending a well-formed create request for the
already-registered env_id e1. -/
theorem C6_duplicate_rejected_witness :
    reqDupFull.params = some (Json.obj
      [("env_id", Json.str "e1"), ("project_root", Json.str "/proj"),
       ("image", Json.str "alpine:latest")]) ∧
    (Registry.mk [("e1", wHandle)]).environments.lookup "e1" = some wHandle ∧
    ((createEnvironment fsAll engOk 0 reqDupFull (Registry.mk [("e1", wHandle)])).result
      = .error (McpError.invalid_params (alreadyMsg "e1")) ∧
     (McpError.invalid_params (alreadyMsg "e1")).code = -32602 ∧
     containsSub (alreadyMsg "e1") "already exists" = true ∧
     (createEnvironment fsAll engOk 0 reqDupFull
        (Registry.mk [("e1", wHandle)])).registry = Registry.mk [("e1", wHandle)] ∧
     (createEnvironment fsAll engOk 0 reqDupFull
        (Registry.mk [("e1", wHandle)])).trace = []) :=
  ⟨rfl, rfl,
   C6_duplicate_rejected fsAll engOk 0 reqDupFull (Registry.mk [("e1", wHandle)])
     (Json.obj [("env_id", Json.str "e1"), ("project_root", Json.str "/proj"),
       ("image", Json.str "alpine:latest")]) "e1" "/proj" "alpine:latest" wHandle
     rfl rfl rfl rfl rfl rfl⟩

/-- C7 counterexample: a run_command request naming a registered env_id whose
handle is not Running, but omitting the command parameter, satisfies the
status-gate antecedent of the claim yet is answered with -32602 Missing
command — not -32600 and not naming the status — because parameter
validation runs before the registry lookup and the status gate
(src/mcp/handlers.rs, lines 217-219 before 229-237). -/
theorem C7_validation_precedes_status_gate :
    (Registry.mk [("e2", wStopped)]).environments.lookup "e2" = some wStopped ∧
    wStopped.status ≠ .running ∧
    (runCommand engOk 0 reqRunNoCmd (Registry.mk [("e2", wStopped)])).result
      = .error (McpError.invalid_params "Missing command") ∧
    (McpError.invalid_params "Missing command").code = -32602 ∧
    containsSub "Missing command" wStopped.status.debugFmt = false :=
  ⟨rfl, by decide, rfl, rfl, by decide⟩

/-- C7 (amended): a run_command request whose params carry env_id and command
as strings fails with -32602 when the env_id is absent from the registry, and
with -32600 naming the current status of the handle (via its Debug rendering)
when the handle exists but is not Running; the registry is unchanged in both
cases. -/
theorem C7_run_command_gates
    (eng : Engine) (now : Nat) (req : McpRequest) (regA regB : Registry)
    (params : Json) (eid cmd : String) (hdl : EnvironmentHandle)
    (hp : req.params = some params)
    (he : getStrParam params "env_id" = some eid)
    (hc : getStrParam params "command" = some cmd)
    (hA : regA.hasKey eid = false)
    (hB : regB.environments.lookup eid = some hdl)
    (hs : hdl.status ≠ .running) :
    (runCommand eng now req regA).result
      = .error (McpError.invalid_params ("Environment not found: " ++ notFoundMsg eid)) ∧
    (McpError.invalid_params ("Environment not found: " ++ notFoundMsg eid)).code
      = -32602 ∧
    (runCommand eng now req regA).registry = regA ∧
    (runCommand eng now req regB).result
      = .error (McpError.invalid_request (notRunningMsg eid hdl.status)) ∧
    (McpError.invalid_request (notRunningMsg eid hdl.status)).code = -32600 ∧
    containsSub (notRunningMsg eid hdl.status) hdl.status.debugFmt = true ∧
    (runCommand eng now req regB).registry = regB := by
  have hgetA := get_err_of_hasKey_false regA eid hA
  have hgetB := get_ok_of_lookup regB eid hdl hB
  have h1 : runCommand eng now req regA =
      ⟨.error (McpError.invalid_params ("Environment not found: " ++ notFoundMsg eid)),
       regA, []⟩ := by
    unfold runCommand
    simp only [hp, he, hc, hgetA]
  have h2 : runCommand eng now req regB =
      ⟨.error (McpError.invalid_request (notRunningMsg eid hdl.status)), regB, []⟩ := by
    unfold runCommand
    simp only [hp, he, hc, hgetB, if_pos hs]
  rw [h1, h2]
  exact ⟨rfl, rfl, rfl, rfl, rfl, containsSub_notRunningMsg eid hdl.status, rfl⟩

/-- C7 witness: the absent-id gate on the empty registry and the
status gate on a registry holding the stopped handle e2. -/
theorem C7_run_command_gates_witness :
    reqRun2.params = some (Json.obj
      [("env_id", Json.str "e2"), ("command", Json.str "ls")]) ∧
    (Registry.mk []).hasKey "e2" = false ∧
    (Registry.mk [("e2", wStopped)]).environments.lookup "e2" = some wStopped ∧
    wStopped.status ≠ .running ∧
    ((runCommand engOk 0 reqRun2 (Registry.mk [])).result
      = .error (McpError.invalid_params ("Environment not found: " ++ notFoundMsg "e2")) ∧
     (McpError.invalid_params ("Environment not found: " ++ notFoundMsg "e2")).code
      = -32602 ∧
     (runCommand engOk 0 reqRun2 (Registry.mk [])).registry = Registry.mk [] ∧
     (runCommand engOk 0 reqRun2 (Registry.mk [("e2", wStopped)])).result
      = .error (McpError.invalid_request (notRunningMsg "e2" wStopped.status)) ∧
     (McpError.invalid_request (notRunningMsg "e2" wStopped.status)).code = -32600 ∧
     containsSub (notRunningMsg "e2" wStopped.status) wStopped.status.debugFmt = true ∧
     (runCommand engOk 0 reqRun2 (Registry.mk [("e2", wStopped)])).registry
      = Registry.mk [("e2", wStopped)]) :=
  ⟨rfl, rfl, rfl, by decide,
   C7_run_command_gates engOk 0 reqRun2 (Registry.mk []) (Registry.mk [("e2", wStopped)])
     (Json.obj [("env_id", Json.str "e2"), ("command", Json.str "ls")]) "e2" "ls"
     wStopped rfl rfl rfl rfl rfl (by decide)⟩

/-- C10: when the exec result carries no exit code, run_command still
succeeds and reports exit_code -1 with stdout and stderr taken verbatim from
the engine result; the registry is unchanged. -/
theorem C10_missing_exit_code_defaults
    (eng : Engine) (now : Nat) (req : McpRequest) (reg : Registry)
    (params : Json) (eid cmd out err : String) (hdl : EnvironmentHandle)
    (hp : req.params = some params)
    (he : getStrParam params "env_id" = some eid)
    (hc : getStrParam params "command" = some cmd)
    (hB : reg.environments.lookup eid = some hdl)
    (hrun : hdl.status = .running)
    (hcn : eng.connectR = .ok ())
    (hex : eng.execCommandR hdl.container_id ["sh", "-c", cmd] = .ok ⟨none, out, err⟩) :
    (runCommand eng now req reg).result
      = .ok (Json.obj
          [("env_id", .str eid), ("command", .str cmd), ("exit_code", .num (-1)),
           ("stdout", .str out), ("stderr", .str err),
           ("executed_at", .str (rfc3339 now))]) ∧
    (runCommand eng now req reg).registry = reg := by
  have hget := get_ok_of_lookup reg eid hdl hB
  have h1 : runCommand eng now req reg =
      ⟨.ok (Json.obj
          [("env_id", .str eid), ("command", .str cmd), ("exit_code", .num (-1)),
           ("stdout", .str out), ("stderr", .str err),
           ("executed_at", .str (rfc3339 now))]), reg,
       [.connect, .execCommand hdl.container_id ["sh", "-c", cmd]]⟩ := by
    unfold runCommand
    simp only [hp, he, hc, hget, hrun, hcn, hex]
    simp
  rw [h1]
  exact ⟨rfl, rfl⟩

/-- C10 witness: exec with no exit code against the running handle e1. -/
theorem C10_missing_exit_code_defaults_witness :
    reqRun1.params = some (Json.obj
      [("env_id", Json.str "e1"), ("command", Json.str "ls")]) ∧
    (Registry.mk [("e1", wHandle)]).environments.lookup "e1" = some wHandle ∧
    wHandle.status = .running ∧
    engExecNoCode.execCommandR wHandle.container_id ["sh", "-c", "ls"]
      = .ok ⟨none, "out", "err"⟩ ∧
    ((runCommand engExecNoCode 0 reqRun1 (Registry.mk [("e1", wHandle)])).result
      = .ok (Json.obj
          [("env_id", .str "e1"), ("command", .str "ls"), ("exit_code", .num (-1)),
           ("stdout", .str "out"), ("stderr", .str "err"),
           ("executed_at", .str (rfc3339 0))]) ∧
     (runCommand engExecNoCode 0 reqRun1 (Registry.mk [("e1", wHandle)])).registry
      = Registry.mk [("e1", wHandle)]) :=
  ⟨rfl, rfl, rfl, rfl,
   C10_missing_exit_code_defaults engExecNoCode 0 reqRun1 (Registry.mk [("e1", wHandle)])
     (Json.obj [("env_id", Json.str "e1"), ("command", Json.str "ls")]) "e1" "ls"
     "out" "err" wHandle rfl rfl rfl rfl rfl rfl rfl⟩

end Cofer
